import Mathlib

/-!
# Verification of the LosTopos `MeshSmoother` null-space smoothing core

Shallow embedding of `src/LosTopos/LosTopos3D/meshsmoother.cpp` (namespace
`LosTopos`, class `MeshSmoother`).  Scalars (`double` in the source) are
modelled as exact rationals `ℚ`; transcendental library functions (`sqrt`,
`cos`, `acos`, `M_PI`), the Eigen eigensolver, the collision pipeline and
the `SurfTrack` mesh-query methods are external to the translated file and
are modelled as oracle fields of an environment record `Env`.  Mutable
surface state (positions, staged new positions, the per-triangle cache
arrays) is threaded explicitly through a record `State`.  Assertion
failures and `abort` are modelled by `Option` (`none` = the process dies).

Rational division is written with the kernel-computable `qdiv` (proved
equal to `·/·` below) so that every definition evaluates on concrete
inputs; in `ℚ` a zero denominator yields `0` where IEEE doubles would
give inf/NaN — the only places this matters are flagged in comments.
-/

namespace MeshSmoother

/-- Exact rational division, kernel-computable (the `Rat` arithmetic of
the ambient library is marked irreducible, so `·/·` is routed through
`Rat.divInt`); proved equal to `·/·` in `qdiv_eq` below.  `qdiv a 0 = 0`. -/
def qdiv (a b : ℚ) : ℚ := Rat.divInt (a.num * b.den) (a.den * b.num)

/-- Kernel-computable rational addition; proved equal to `·+·` below. -/
def qadd (a b : ℚ) : ℚ := mkRat (a.num * b.den + b.num * a.den) (a.den * b.den)

/-- Kernel-computable rational subtraction; proved equal to `·-·` below. -/
def qsub (a b : ℚ) : ℚ := mkRat (a.num * b.den - b.num * a.den) (a.den * b.den)

/-- Kernel-computable rational multiplication; proved equal to `·*·` below. -/
def qmul (a b : ℚ) : ℚ := mkRat (a.num * b.num) (a.den * b.den)

/-- A 3-vector of rationals, modelling `Vec3d`. -/
structure Vec3 where
  x : ℚ
  y : ℚ
  z : ℚ
deriving DecidableEq, Repr

namespace Vec3

def add (a b : Vec3) : Vec3 := ⟨qadd a.x b.x, qadd a.y b.y, qadd a.z b.z⟩

def sub (a b : Vec3) : Vec3 := ⟨qsub a.x b.x, qsub a.y b.y, qsub a.z b.z⟩

def smul (q : ℚ) (a : Vec3) : Vec3 := ⟨qmul q a.x, qmul q a.y, qmul q a.z⟩

/-- Componentwise division by a scalar, modelling `operator/=` on
`Vec3d`. -/
def divQ (a : Vec3) (q : ℚ) : Vec3 := ⟨qdiv a.x q, qdiv a.y q, qdiv a.z q⟩

def dot (a b : Vec3) : ℚ :=
  qadd (qadd (qmul a.x b.x) (qmul a.y b.y)) (qmul a.z b.z)

def cross (a b : Vec3) : Vec3 :=
  ⟨qsub (qmul a.y b.z) (qmul a.z b.y),
   qsub (qmul a.z b.x) (qmul a.x b.z),
   qsub (qmul a.x b.y) (qmul a.y b.x)⟩

/-- Squared Euclidean norm; `mag` in the source is `sqrt ∘ normSq`. -/
def normSq (a : Vec3) : ℚ := dot a a

instance : Zero Vec3 := ⟨⟨0, 0, 0⟩⟩

instance : Add Vec3 := ⟨add⟩

instance : Sub Vec3 := ⟨sub⟩

end Vec3

/-- A 3×3 rational matrix (rows), modelling `Mat33d` / `Eigen::Matrix3d`. -/
structure Mat3 where
  r0 : Vec3
  r1 : Vec3
  r2 : Vec3
deriving DecidableEq, Repr

namespace Mat3

instance : Zero Mat3 := ⟨⟨0, 0, 0⟩⟩

def add (A B : Mat3) : Mat3 := ⟨A.r0 + B.r0, A.r1 + B.r1, A.r2 + B.r2⟩

instance : Add Mat3 := ⟨add⟩

/-- The outer product `a bᵀ` (entry (i,j) is `a_i * b_j`). -/
def outer (a b : Vec3) : Mat3 :=
  ⟨Vec3.smul a.x b, Vec3.smul a.y b, Vec3.smul a.z b⟩

/-- Matrix–vector product. -/
def mulVec (A : Mat3) (v : Vec3) : Vec3 :=
  ⟨Vec3.dot A.r0 v, Vec3.dot A.r1 v, Vec3.dot A.r2 v⟩

end Mat3

/-- A collision candidate `Vec3st` as produced by the collision pipeline:
`(index0, index1, flag)` where `flag = 1` marks an edge–edge pair and any
other flag a point–triangle pair. -/
abbrev Candidate := Nat × Nat × Nat

/-- The immutable environment: mesh connectivity (owned by
`NonDestructiveTriMesh`), configuration constants of `SurfTrack`, and
oracles for every external function the translated file calls
(libm transcendentals, the Eigen eigensolver, the collision pipeline,
the collision queries, and `SurfTrack` feature/geometry queries). -/
structure Env where
  numVertices : Nat
  numTriangles : Nat
  /-- `m_mesh.m_tris i` / `m_mesh.get_triangle i`: the three vertex indices. -/
  tris : Nat → Nat × Nat × Nat
  /-- `m_mesh.m_edges e`: the two endpoint vertex indices. -/
  edges : Nat → Nat × Nat
  /-- `m_mesh.m_vertex_to_triangle_map`. -/
  v2t : Nat → List Nat
  /-- `m_mesh.m_vertex_to_edge_map`. -/
  v2e : Nat → List Nat
  /-- `m_mesh.m_edge_to_triangle_map`. -/
  e2t : Nat → List Nat
  /-- `m_mesh.get_triangle_label`. -/
  triLabel : Nat → Int × Int
  /-- `m_mesh.vertex_is_deleted`. -/
  deleted : Nat → Bool
  /-- `m_surf.vertex_is_solid_3` (per-axis solidity). -/
  solid3 : Nat → Bool × Bool × Bool
  /-- `m_surf.vertex_is_all_solid`. -/
  allSolid : Nat → Bool
  /-- `m_surf.m_aggressive_mode`. -/
  aggressive : Bool
  /-- `m_surf.m_collision_safety`. -/
  collisionSafety : Bool
  /-- `m_surf.m_max_edge_length`. -/
  maxEdgeLength : ℚ
  /-- `m_surf.m_improve_collision_epsilon`. -/
  improveCollisionEps : ℚ
  /-- `m_sharp_fold_regularization_threshold`. -/
  sharpFoldThreshold : ℚ
  /-- `m_surf.m_min_angle_cosine` (used by the aggressive pass loop). -/
  minAngleCosine : ℚ
  /-- `m_surf.m_max_angle_cosine` (used by the aggressive pass loop). -/
  maxAngleCosine : ℚ
  /-- The libm value `cos(160°·π/180)` (local `min_cos` of the worth check). -/
  minCos : ℚ
  /-- The libm value `cos(20°·π/180)` (local `max_cos` of the worth check). -/
  maxCos : ℚ
  /-- `G_EIGENVALUE_RANK_RATIO` (external constant). -/
  rankRatio : ℚ
  /-- The libm constant `M_PI`. -/
  piQ : ℚ
  /-- The libm `sqrt`, as an oracle on rationals. -/
  sqrtQ : ℚ → ℚ
  /-- The libm `acos`, as an oracle on rationals. -/
  acosQ : ℚ → ℚ
  /-- `m_surf.get_largest_dihedral(edge, triangle_normals)` (SurfTrack). -/
  largestDihedral : Nat → (Nat → Vec3) → ℚ
  /-- `m_surf.edge_is_feature(edge, triangle_normals)` (SurfTrack). -/
  edgeIsFeature : Nat → (Nat → Vec3) → Bool
  /-- `m_surf.get_triangle_normal_by_region(tri, region)` (SurfTrack);
  reads the current positions. -/
  triNormalByRegion : Nat → Int → (Nat → Vec3) → Vec3
  /-- The Eigen `SelfAdjointEigenSolver`: eigenvalues `(λ0,λ1,λ2)` and the
  corresponding eigenvector columns. -/
  eigenSolve : Mat3 → (ℚ × ℚ × ℚ) × (Vec3 × Vec3 × Vec3)
  /-- `es.info() == Eigen::Success` for the decomposition of the argument. -/
  eigenOk : Mat3 → Bool
  /-- `m_collision_pipeline->add_triangle_candidates(t, true, true, ·)`:
  the candidates appended for triangle `t`. -/
  triCandidates : Nat → List Candidate
  /-- `m_collision_pipeline->add_point_candidates(v, true, true, ·)`. -/
  pointCandidates : Nat → List Candidate
  /-- `m_collision_pipeline->add_edge_candidates(e, true, true, ·)`. -/
  edgeCandidates : Nat → List Candidate
  /-- `m_collision_pipeline->any_collision(candidates, collision)`: exact
  CCD over the candidate set, reading positions and staged new positions. -/
  anyCollision : (Nat → Vec3) → (Nat → Vec3) → List Candidate → Bool
  /-- `check_edge_edge_proximity`: the static distance it reports for the
  four argument points. -/
  eeDist : Vec3 → Vec3 → Vec3 → Vec3 → ℚ
  /-- `check_point_triangle_proximity`: the static distance it reports. -/
  ptDist : Vec3 → Vec3 → Vec3 → Vec3 → ℚ

/-- The mutable surface state threaded through a smoothing pass:
committed positions, staged new positions, and the cached per-triangle
area / normal / centroid arrays. -/
structure State where
  positions : Nat → Vec3
  newpositions : Nat → Vec3
  triangle_areas : Nat → ℚ
  triangle_normals : Nat → Vec3
  triangle_centroids : Nat → Vec3

/-- Pointwise update of an index-addressed array (a `std::vector` write). -/
def upd {α : Type} (f : Nat → α) (i : Nat) (a : α) : Nat → α :=
  fun j => if j = i then a else f j

/-- The state after `m_surf.set_newposition(v, p)`. -/
def staged (s : State) (v : Nat) (p : Vec3) : State :=
  { s with newpositions := upd s.newpositions v p }

/-- `mag(v)` of the source: `sqrt(dot(v,v))`, with `sqrt` the libm oracle. -/
def magQ (E : Env) (v : Vec3) : ℚ := E.sqrtQ (Vec3.normSq v)

/-- `normalize(v)` of the source: `v /= mag(v)` (in-place); here the
normalized value. -/
def vnormalize (E : Env) (v : Vec3) : Vec3 := Vec3.divQ v (magQ E v)

/-- `normalized(v)` of the source (functional form of `normalize`). -/
def vnormalized (E : Env) (v : Vec3) : Vec3 := vnormalize E v

/-- Modelled from the spec: `triangle_angle_cosines` (declared in
`trianglequality.h`, not part of the translated sources) — "cosine of
each interior angle, via normalized edge-vector dot products". -/
def triangle_angle_cosines (E : Env) (v0 v1 v2 : Vec3) : ℚ × ℚ × ℚ :=
  ⟨Vec3.dot (vnormalize E (v1 - v0)) (vnormalize E (v2 - v0)),
   Vec3.dot (vnormalize E (v0 - v1)) (vnormalize E (v2 - v1)),
   Vec3.dot (vnormalize E (v0 - v2)) (vnormalize E (v1 - v2))⟩

/-- Modelled from the spec: `SurfTrack::get_triangle_area` — "standard
cross-product-based formulas": half the magnitude of the edge cross
product. -/
def triangle_area_of (E : Env) (p0 p1 p2 : Vec3) : ℚ :=
  qmul (mkRat 1 2) (magQ E (Vec3.cross (p1 - p0) (p2 - p0)))

/-- Modelled from the spec: `SurfTrack::get_triangle_normal` — "standard
cross-product-based formulas; normal is unit-length, orientation
consistent with vertex winding". -/
def triangle_normal_of (E : Env) (p0 p1 p2 : Vec3) : Vec3 :=
  vnormalize E (Vec3.cross (p1 - p0) (p2 - p0))

/-- Modelled from the spec: `SurfTrack::vertex_feature_edge_count(v,
triangle_normals)` — "count incident edges classified feature" (§4.2),
each edge classified by the externally configured `edge_is_feature`. -/
def vertex_feature_edge_count (E : Env) (s : State) (v : Nat) : Int :=
  ((E.v2e v).countP (fun e => E.edgeIsFeature e s.triangle_normals) : Int)

/-- The `(normal, area)` pairs gathered from the cache for a triangle index
list (the parallel `N` / `W` vectors of the source). -/
def gathered_NW (s : State) (tris : List Nat) : List (Vec3 × ℚ) :=
  tris.map (fun t => (s.triangle_normals t, s.triangle_areas t))

/-- The quadric `A = Σ_i W[i] · N[i] N[i]ᵀ` accumulated entrywise by the
source (`A(r,c) += N[i][r] * W[i] * N[i][c]`). -/
def quadric_matrix (nw : List (Vec3 × ℚ)) : Mat3 :=
  nw.foldl (fun A p => A + Mat3.outer (Vec3.smul p.2 p.1) p.1) 0

/-- The `T2` collection of the classic branch: eigenvector columns whose
eigenvalue is strictly below the cutoff, in index order `0, 1, 2`. -/
def small_eigvecs (vals : ℚ × ℚ × ℚ) (vecs : Vec3 × Vec3 × Vec3) (cutoff : ℚ) :
    List Vec3 :=
  (if vals.1 < cutoff then [vecs.1] else []) ++
    (if vals.2.1 < cutoff then [vecs.2.1] else []) ++
    (if vals.2.2 < cutoff then [vecs.2.2] else [])

/-- `null_space_projection(r,c) += T[i][r] * T[i][c]`: the projector
`P = Σ_i t_i t_iᵀ`. -/
def null_space_projection (T : List Vec3) : Mat3 :=
  T.foldl (fun M t => M + Mat3.outer t t) 0

/-- `sum_areas` of the synthesizers: the sum of cached areas over the
triangle index list. -/
def sum_cached_areas (s : State) (tris : List Nat) : ℚ :=
  tris.foldl (fun acc t => qadd acc (s.triangle_areas t)) 0

/-- The accumulated `t += area * (centroid - position(v))` of the
synthesizers. -/
def weighted_offset_sum (s : State) (v : Nat) (tris : List Nat) : Vec3 :=
  tris.foldl
    (fun acc t => acc + Vec3.smul (s.triangle_areas t) (s.triangle_centroids t - s.positions v)) 0

/-- `MeshSmoother::get_smoothing_displacement`: the classic null-space
smoothing displacement over an arbitrary triangle subset. -/
def get_smoothing_displacement (E : Env) (s : State) (v : Nat) (tris : List Nat) : Vec3 :=
  let A := quadric_matrix (gathered_NW s tris)
  let ev := E.eigenSolve A
  let vals := ev.1
  let max_eig := max vals.1 (max vals.2.1 vals.2.2)
  let T2 := small_eigvecs vals ev.2 (qmul E.rankRatio max_eig)
  let P := null_space_projection T2
  let t := Mat3.mulVec P (weighted_offset_sum s v tris)
  Vec3.divQ t (sum_cached_areas s tris)

/-- `MeshSmoother::get_smoothing_displacement_naive`: area-weighted
Laplacian displacement, no projection.  (The `N`/`W` vectors the source
also builds there are dead code.) -/
def get_smoothing_displacement_naive (E : Env) (s : State) (v : Nat) (tris : List Nat) :
    Vec3 :=
  Vec3.divQ (weighted_offset_sum s v tris) (sum_cached_areas s tris)

/-- `Jiao_b = Σ_i N[i] * W[i]`. -/
def jiao_b (nw : List (Vec3 × ℚ)) : Vec3 :=
  nw.foldl (fun acc p => acc + Vec3.smul p.2 p.1) 0

/-- `Jiao_d`: the combined-normal accumulation of the flat branch —
`Jiao_d += dot(Jiao_b, e_i) * e_i / λ_i` for each eigenpair with
`λ_i > cutoff`, in index order. -/
def jiao_d (vals : ℚ × ℚ × ℚ) (vecs : Vec3 × Vec3 × Vec3) (cutoff : ℚ) (b : Vec3) : Vec3 :=
  (((0 : Vec3) +
      (if vals.1 > cutoff then Vec3.divQ (Vec3.smul (Vec3.dot b vecs.1) vecs.1) vals.1 else 0)) +
    (if vals.2.1 > cutoff then
      Vec3.divQ (Vec3.smul (Vec3.dot b vecs.2.1) vecs.2.1) vals.2.1 else 0)) +
    (if vals.2.2 > cutoff then
      Vec3.divQ (Vec3.smul (Vec3.dot b vecs.2.2) vecs.2.2) vals.2.2 else 0)

/-- The eigenvector paired with `eig_min` by the selection chain
`eig_min == λ0 ? col0 : (eig_min == λ1 ? col1 : col2)`. -/
def eig_min_vec_of (vals : ℚ × ℚ × ℚ) (vecs : Vec3 × Vec3 × Vec3) (eig_min : ℚ) : Vec3 :=
  if eig_min = vals.1 then vecs.1 else if eig_min = vals.2.1 then vecs.2.1 else vecs.2.2

/-- `eig_max = max(λ0, max(λ1, λ2))`. -/
def eig_max_of (vals : ℚ × ℚ × ℚ) : ℚ := max vals.1 (max vals.2.1 vals.2.2)

/-- `eig_min = min(λ0, min(λ1, λ2))`. -/
def eig_min_of (vals : ℚ × ℚ × ℚ) : ℚ := min vals.1 (min vals.2.1 vals.2.2)

/-- `eig_mid = max(min(λ0,λ1), min(max(λ0,λ1), λ2))`. -/
def eig_mid_of (vals : ℚ × ℚ × ℚ) : ℚ :=
  max (min vals.1 vals.2.1) (min (max vals.1 vals.2.1) vals.2.2)

/-- The (unnormalized) Jiao combined normal of the flat branch, as built
from the eigendecomposition of the quadric of the gathered triangle set. -/
def jiao_combined (E : Env) (s : State) (tris : List Nat) : Vec3 :=
  let nw := gathered_NW s tris
  let ev := E.eigenSolve (quadric_matrix nw)
  jiao_d ev.1 ev.2 (qmul E.rankRatio (eig_max_of ev.1)) (jiao_b nw)

/-- The normalized Jiao combined normal of the flat branch. -/
def jiao_normal (E : Env) (s : State) (tris : List Nat) : Vec3 :=
  vnormalize E (jiao_combined E s tris)

/-- Jiao's well-conditioning test of the ridge branch:
`eig_min / eig_mid <= 0.7 && eig_mid / eig_max >= 0.00765`.
(In `ℚ`, division by a zero denominator yields `0` where IEEE would give
inf/NaN; with `eig_min ≤ eig_mid ≤ eig_max` as computed by the source the
branch taken coincides, via the second conjunct.) -/
def ridge_uses_quadric (eig_min eig_mid eig_max : ℚ) : Bool :=
  decide (qdiv eig_min eig_mid ≤ mkRat 7 10) &&
    decide (qdiv eig_mid eig_max ≥ mkRat 153 20000)

/-- The feature edges incident to `v`, in `m_vertex_to_edge_map` order. -/
def feature_edges_of (E : Env) (s : State) (v : Nat) : List Nat :=
  (E.v2e v).filter (fun e => E.edgeIsFeature e s.triangle_normals)

/-- The normalized vector of a mesh edge, `position(e[0]) - position(e[1])`
normalized in place. -/
def feature_edge_vec (E : Env) (s : State) (e : Nat) : Vec3 :=
  vnormalize E (s.positions (E.edges e).1 - s.positions (E.edges e).2)

/-- The midpoint `0.5 * (position(e[0]) + position(e[1]))` of a mesh edge. -/
def edge_midpoint (E : Env) (s : State) (e : Nat) : Vec3 :=
  Vec3.smul (mkRat 1 2) (s.positions (E.edges e).1 + s.positions (E.edges e).2)

/-- The 1-D null-space basis `T` of the ridge branch: the smallest-eigenvalue
eigenvector when the spectrum is well-conditioned, otherwise the geometric
fallback (feature-edge vector(s) for one feature edge, midpoint difference
for two); `none` models the `assert(false)` of the unreachable arm.
(With fewer than two collected midpoints the source indexes out of bounds —
undefined behaviour — modelled by `getD` with default `0`.) -/
def ridge_T (E : Env) (s : State) (v : Nat) (feature_edge_count : Int)
    (vals : ℚ × ℚ × ℚ) (vecs : Vec3 × Vec3 × Vec3)
    (eig_min eig_mid eig_max : ℚ) : Option (List Vec3) :=
  if ridge_uses_quadric eig_min eig_mid eig_max then
    some [eig_min_vec_of vals vecs eig_min]
  else if feature_edge_count = 1 then
    some ((feature_edges_of E s v).map (feature_edge_vec E s))
  else if feature_edge_count = 2 then
    let edge_midpoints := (feature_edges_of E s v).map (edge_midpoint E s)
    some [vnormalized E (edge_midpoints.getD 0 0 - edge_midpoints.getD 1 0)]
  else
    none

/-- `MeshSmoother::get_smoothing_displacement_dihedral`: the dihedral-aware
policy.  `none` models the `assert(0)` after an Eigen failure and the
`assert(false)` in the ridge fallback. -/
def get_smoothing_displacement_dihedral (E : Env) (s : State) (v : Nat) (tris : List Nat) :
    Option Vec3 :=
  let feature_edge_count := vertex_feature_edge_count E s v
  if 3 ≤ feature_edge_count then some 0
  else
    let nw := gathered_NW s tris
    let A := quadric_matrix nw
    if E.eigenOk A = false then none
    else
      let ev := E.eigenSolve A
      let vals := ev.1
      let vecs := ev.2
      if feature_edge_count = 0 then
        let normal := jiao_normal E s tris
        let t := Vec3.divQ (weighted_offset_sum s v tris) (sum_cached_areas s tris)
        some (t - Vec3.smul (Vec3.dot normal t) normal)
      else
        match ridge_T E s v feature_edge_count vals vecs (eig_min_of vals)
            (eig_mid_of vals) (eig_max_of vals) with
        | none => none
        | some T =>
          let P := null_space_projection T
          let t := Mat3.mulVec P (weighted_offset_sum s v tris)
          some (Vec3.divQ t (sum_cached_areas s tris))

/-- The fold-detection loop: some incident edge has a largest dihedral
angle within `m_sharp_fold_regularization_threshold` of `π`. -/
def regularize_folded_feature (E : Env) (s : State) (v : Nat) : Bool :=
  (E.v2e v).any (fun e =>
    decide (qsub E.piQ (E.largestDihedral e s.triangle_normals) < E.sharpFoldThreshold))

/-- Insertion into a `≤`-sorted list of region labels. -/
def insertSorted (a : Int) : List Int → List Int
  | [] => [a]
  | b :: bs => if a ≤ b then a :: b :: bs else b :: insertSorted a bs

/-- The `std::set<int> incident_regions`: both labels of every incident
triangle, iterated in ascending order without duplicates. -/
def incident_regions (E : Env) (v : Nat) : List Int :=
  (((E.v2t v).foldl (fun acc t => acc ++ [(E.triLabel t).1, (E.triLabel t).2]) []).foldr
      insertSorted []).dedup

/-- The `normal_pair` collected for an edge/region combination: the
region normals of the first two triangles on the edge carrying that
label.  (If fewer than two are found the source reads indeterminate
stack values — undefined behaviour — modelled as `0`; a third matching
triangle would be written out of bounds — also UB — and is dropped.) -/
def normal_pair_for (E : Env) (s : State) (edge : Nat) (region : Int) : Vec3 × Vec3 :=
  let ns := ((E.e2t edge).filter
      (fun t => (E.triLabel t).1 == region || (E.triLabel t).2 == region)).map
    (fun t => E.triNormalByRegion t region s.positions)
  (ns.getD 0 0, ns.getD 1 0)

/-- The sharpest-region search of the fold branch: over incident edges
with at most three incident triangles and every incident region (in
`std::set` ascending order), track the strictly largest dihedral angle
`acos(dot(normal_pair))` together with its region; initial state
`(-1, 0)`. -/
def sharpest_region_search (E : Env) (s : State) (v : Nat) : Int × ℚ :=
  (E.v2e v).foldl
    (fun acc edge =>
      if 3 < (E.e2t edge).length then acc
      else
        (incident_regions E v).foldl
          (fun acc2 region =>
            let np := normal_pair_for E s edge region
            let dihedral_angle := E.acosQ (Vec3.dot np.1 np.2)
            if dihedral_angle > acc2.2 then (region, dihedral_angle) else acc2)
          acc)
    (-1, 0)

/-- The displacement-policy dispatch of `null_space_smooth_vertex`
(lines 272–365 of the source): aggressive → naive Laplacian; otherwise
fold detection, the sharpest-region restriction when it fires, else the
dihedral-aware policy.  `none` models the asserts
(`assert(tri_set.size() > 0)` and those inside the dihedral policy). -/
def compute_displacement (E : Env) (s : State) (v : Nat) (incident : List Nat) :
    Option Vec3 :=
  if E.aggressive then some (get_smoothing_displacement_naive E s v incident)
  else if regularize_folded_feature E s v then
    let sr := sharpest_region_search E s v
    if sr.1 ≠ -1 ∧ qsub E.piQ sr.2 < E.sharpFoldThreshold then
      let tri_set := incident.filter
        (fun t => (E.triLabel t).1 == sr.1 || (E.triLabel t).2 == sr.1)
      if tri_set.isEmpty then none
      else some (get_smoothing_displacement E s v tri_set)
    else get_smoothing_displacement_dihedral E s v incident
  else get_smoothing_displacement_dihedral E s v incident

/-- The per-axis solidity mask of lines 368–371: a solid axis 0 is set to
`0`, but solid axes 1 and 2 are set to the literal constants `1` and `2`
(the source's own comment questions this). -/
def apply_solid_mask (solid : Bool × Bool × Bool) (d : Vec3) : Vec3 :=
  ⟨if solid.1 then 0 else d.x,
   if solid.2.1 then 1 else d.y,
   if solid.2.2 then 2 else d.z⟩

/-- The bad-angle test of the `worth_smoothing` loop: any interior-angle
cosine of triangle `i` outside `[min_cos, max_cos]`. -/
def bad_angle (E : Env) (s : State) (i : Nat) : Bool :=
  let tri := E.tris i
  let c := triangle_angle_cosines E (s.positions tri.1) (s.positions tri.2.1)
    (s.positions tri.2.2)
  decide (c.1 < E.minCos) || decide (c.1 > E.maxCos) ||
    decide (c.2.1 < E.minCos) || decide (c.2.1 > E.maxCos) ||
    decide (c.2.2 < E.minCos) || decide (c.2.2 > E.maxCos)

/-- All three interior-angle cosines of triangle `i` lie within
`[min_cos, max_cos]` (the negation of `bad_angle`, phrased as the spec
does). -/
abbrev cosines_in_range (E : Env) (s : State) (i : Nat) : Prop :=
  let tri := E.tris i
  let c := triangle_angle_cosines E (s.positions tri.1) (s.positions tri.2.1)
    (s.positions tri.2.2)
  E.minCos ≤ c.1 ∧ c.1 ≤ E.maxCos ∧ E.minCos ≤ c.2.1 ∧ c.2.1 ≤ E.maxCos ∧
    E.minCos ≤ c.2.2 ∧ c.2.2 ≤ E.maxCos

/-- The candidate set gathered by
`smooth_vertex_pseudo_motion_introduces_collision`: triangle candidates
for each moving triangle, then point candidates for the vertex, then
edge candidates for each moving edge. -/
def gather_candidates (E : Env) (v : Nat) : List Candidate :=
  ((E.v2t v).foldl (fun acc t => acc ++ E.triCandidates t) []) ++
    E.pointCandidates v ++
    ((E.v2e v).foldl (fun acc e => acc ++ E.edgeCandidates e) [])

/-- The per-candidate static-proximity rejection test (lines 805–844):
edge–edge candidates with a degenerate or vertex-sharing pair are
skipped, likewise point–triangle candidates with a degenerate triangle
or a vertex of the triangle; otherwise reject when the external
proximity distance on the staged new positions is below
`m_improve_collision_epsilon`. -/
def candidate_proximity_reject (E : Env) (s : State) (c : Candidate) : Bool :=
  if c.2.2 = 1 then
    let e0 := E.edges c.1
    let e1 := E.edges c.2.1
    if e0.1 = e0.2 then false
    else if e1.1 = e1.2 then false
    else if e0.1 ≠ e1.1 ∧ e0.1 ≠ e1.2 ∧ e0.2 ≠ e1.1 ∧ e0.2 ≠ e1.2 then
      decide (E.eeDist (s.newpositions e0.1) (s.newpositions e0.2)
        (s.newpositions e1.1) (s.newpositions e1.2) < E.improveCollisionEps)
    else false
  else
    let t := E.tris c.1
    let vv := c.2.1
    if t.1 = t.2.1 then false
    else if t.1 ≠ vv ∧ t.2.1 ≠ vv ∧ t.2.2 ≠ vv then
      decide (E.ptDist (s.newpositions vv) (s.newpositions t.1)
        (s.newpositions t.2.1) (s.newpositions t.2.2) < E.improveCollisionEps)
    else false

/-- `MeshSmoother::smooth_vertex_pseudo_motion_introduces_collision`:
exact CCD over the gathered candidates, then the static-proximity
fallback over the same candidates. -/
def introduces_collision (E : Env) (s : State) (v : Nat) : Bool :=
  let cands := gather_candidates E v
  if E.anyCollision s.positions s.newpositions cands then true
  else cands.any (candidate_proximity_reject E s)

/-- The cache refresh after a committed move (lines 406–421): every
incident triangle gets recomputed area/normal/centroid from the
committed positions, except placeholders with `tri[0] == tri[1]`, which
are zeroed. -/
def refresh_caches (E : Env) (s : State) (incident : List Nat) : State :=
  { s with
    triangle_areas := fun t =>
      if incident.contains t then
        (let tri := E.tris t
         if tri.1 = tri.2.1 then 0
         else triangle_area_of E (s.positions tri.1) (s.positions tri.2.1)
           (s.positions tri.2.2))
      else s.triangle_areas t,
    triangle_normals := fun t =>
      if incident.contains t then
        (let tri := E.tris t
         if tri.1 = tri.2.1 then 0
         else triangle_normal_of E (s.positions tri.1) (s.positions tri.2.1)
           (s.positions tri.2.2))
      else s.triangle_normals t,
    triangle_centroids := fun t =>
      if incident.contains t then
        (let tri := E.tris t
         if tri.1 = tri.2.1 then 0
         else Vec3.divQ (s.positions tri.1 + s.positions tri.2.1 + s.positions tri.2.2) 3)
      else s.triangle_centroids t }

/-- The tail of `null_space_smooth_vertex` after the early exits: policy
dispatch, solidity mask, magnitude cap, tentative staging, collision
guard, commit and cache refresh (lines 272–422). -/
def nssv_core (E : Env) (s : State) (v : Nat) : Option (State × Vec3) :=
  match compute_displacement E s v (E.v2t v) with
  | none => none
  | some d0 =>
    let d := apply_solid_mask (E.solid3 v) d0
    if magQ E d > qmul 2 E.maxEdgeLength then some (s, 0)
    else
      let s1 := staged s v (s.positions v + d)
      if E.collisionSafety && introduces_collision E s1 v then
        some (staged s1 v (s1.positions v), 0)
      else
        let s2 : State := { s1 with positions := upd s1.positions v (s.positions v + d) }
        some (refresh_caches E s2 (E.v2t v), d)

/-- `MeshSmoother::null_space_smooth_vertex`: the full per-vertex routine.
The `displacement` out-parameter is modelled by taking its incoming value
`disp0` (returned unchanged on the deleted-vertex early return, which
does not write it) and returning the value it holds on exit, together
with the resulting state.  `none` models a process abort via `assert`. -/
def null_space_smooth_vertex (E : Env) (s : State) (v : Nat) (disp0 : Vec3) :
    Option (State × Vec3) :=
  if E.deleted v then some (s, disp0)
  else if (E.v2t v).isEmpty then some (s, 0)
  else if (E.v2e v).any (fun e => (E.e2t e).length = 1) then some (s, 0)
  else
    let worth := (E.v2t v).any (fun i => bad_angle E s i)
    if worth = false then some (s, 0)
    else nssv_core E s v

/-- The initial cache build of `null_space_smoothing_pass` (lines
865–887): per-triangle area/normal/centroid from the starting positions,
with `tri[0] == tri[1]` placeholders zeroed.  (The built `std::vector`s
have exactly `num_triangles` entries; indices beyond that are modelled
as `0`.) -/
def initial_state (E : Env) (pos0 np0 : Nat → Vec3) : State :=
  { positions := pos0
    newpositions := np0
    triangle_areas := fun t =>
      if t < E.numTriangles then
        (let tri := E.tris t
         if tri.1 = tri.2.1 then 0
         else triangle_area_of E (pos0 tri.1) (pos0 tri.2.1) (pos0 tri.2.2))
      else 0
    triangle_normals := fun t =>
      if t < E.numTriangles then
        (let tri := E.tris t
         if tri.1 = tri.2.1 then 0
         else triangle_normal_of E (pos0 tri.1) (pos0 tri.2.1) (pos0 tri.2.2))
      else 0
    triangle_centroids := fun t =>
      if t < E.numTriangles then
        (let tri := E.tris t
         if tri.1 = tri.2.1 then 0
         else Vec3.divQ (pos0 tri.1 + pos0 tri.2.1 + pos0 tri.2.2) 3)
      else 0 }

/-- The standard-mode sweep (lines 893–904): every non-all-solid vertex in
index order, threading the state and the per-vertex displacement array
(initialized to zero).  The `max_displacement` tracking of the source is
purely diagnostic (never branched on) and is not modelled. -/
def run_standard (E : Env) (s0 : State) : Option (State × (Nat → Vec3)) :=
  (List.range E.numVertices).foldlM
    (fun (acc : State × (Nat → Vec3)) v =>
      if E.allSolid v then pure acc
      else do
        let r ← null_space_smooth_vertex E acc.1 v (acc.2 v)
        pure (r.1, upd acc.2 v r.2))
    (s0, fun _ => (0 : Vec3))

/-- The aggressive-mode sweep (lines 905–940): for every triangle whose
angle cosines violate `[m_min_angle_cosine, m_max_angle_cosine]`, smooth
each of its not-yet-smoothed, non-all-solid vertices once. -/
def run_aggressive (E : Env) (s0 : State) : Option (State × (Nat → Vec3)) := do
  let r ← (List.range E.numTriangles).foldlM
    (fun (acc : State × ((Nat → Vec3) × (Nat → Bool))) i =>
      let s := acc.1
      let tri := E.tris i
      let c := triangle_angle_cosines E (s.positions tri.1) (s.positions tri.2.1)
        (s.positions tri.2.2)
      let bad := decide (c.1 < E.minAngleCosine) || decide (c.1 > E.maxAngleCosine) ||
        decide (c.2.1 < E.minAngleCosine) || decide (c.2.1 > E.maxAngleCosine) ||
        decide (c.2.2 < E.minAngleCosine) || decide (c.2.2 > E.maxAngleCosine)
      if bad then
        [tri.1, tri.2.1, tri.2.2].foldlM
          (fun (acc2 : State × ((Nat → Vec3) × (Nat → Bool))) v =>
            if !E.allSolid v && !acc2.2.2 v then do
              let r ← null_space_smooth_vertex E acc2.1 v (acc2.2.1 v)
              pure (r.1, (upd acc2.2.1 v r.2, upd acc2.2.2 v true))
            else pure acc2)
          acc
      else pure acc)
    (s0, (fun _ => (0 : Vec3), fun _ => false))
  pure (r.1, r.2.1)

/-- `MeshSmoother::null_space_smoothing_pass`: build the caches, run the
mode-selected sweep.  The C++ function then notifies the external mesh
event callback and returns the constant `true`; the observable outcome
modelled here is the final state and displacement array (`none` = abort
via assert). -/
def null_space_smoothing_pass (E : Env) (pos0 np0 : Nat → Vec3) :
    Option (State × (Nat → Vec3)) :=
  let s0 := initial_state E pos0 np0
  if E.aggressive = false then run_standard E s0 else run_aggressive E s0

/-! ## Shared concrete instances for witnesses and counterexamples

`baseEnv` is a small mesh environment: one triangle `(0,1,2)`, vertex `0`
incident to it, collinear positions (so the triangle has a genuinely bad
angle cosine: the raw value `2` exceeds `maxCos = 9/10` under the chosen
`sqrt` oracle), no features, no folds, trivial oracles. -/

def colPos : Nat → Vec3 := fun i =>
  if i = 0 then ⟨0, 0, 0⟩ else if i = 1 then ⟨1, 0, 0⟩ else ⟨2, 0, 0⟩

def baseEnv : Env where
  numVertices := 3
  numTriangles := 1
  tris := fun _ => (0, 1, 2)
  edges := fun _ => (0, 1)
  v2t := fun _ => [0]
  v2e := fun _ => [0]
  e2t := fun _ => [0, 1]
  triLabel := fun _ => (0, 1)
  deleted := fun _ => false
  solid3 := fun _ => (false, false, false)
  allSolid := fun _ => false
  aggressive := false
  collisionSafety := false
  maxEdgeLength := 1
  improveCollisionEps := 0
  sharpFoldThreshold := 0
  minAngleCosine := mkRat (-9) 10
  maxAngleCosine := mkRat 9 10
  minCos := mkRat (-9) 10
  maxCos := mkRat 9 10
  rankRatio := mkRat 3 100
  piQ := mkRat 355 113
  sqrtQ := fun _ => 1
  acosQ := fun _ => 0
  largestDihedral := fun _ _ => 0
  edgeIsFeature := fun _ _ => false
  triNormalByRegion := fun _ _ _ => 0
  eigenSolve := fun _ => ((0, 0, 1), (⟨1, 0, 0⟩, ⟨0, 1, 0⟩, ⟨0, 0, 1⟩))
  eigenOk := fun _ => true
  triCandidates := fun _ => []
  pointCandidates := fun _ => []
  edgeCandidates := fun _ => []
  anyCollision := fun _ _ _ => false
  eeDist := fun _ _ _ _ => 1
  ptDist := fun _ _ _ _ => 1

/-- A state over `colPos` with all-zero caches. -/
def baseState : State where
  positions := colPos
  newpositions := colPos
  triangle_areas := fun _ => 0
  triangle_normals := fun _ => 0
  triangle_centroids := fun _ => 0

def envC6 : Env := { baseEnv with v2e := fun _ => [0], e2t := fun _ => [5] }

def envC5 : Env := { baseEnv with sqrtQ := fun q => if q = 10000 then 100 else 1 }

def stateC5 : State :=
  { baseState with
    triangle_areas := fun _ => 1
    triangle_normals := fun _ => ⟨0, 0, 1⟩
    triangle_centroids := fun _ => ⟨100, 0, 0⟩ }

def envC1 : Env :=
  { baseEnv with collisionSafety := true, anyCollision := fun _ _ _ => true }

/-- A corner configuration: three incident feature edges (feature count 3),
the middle axis flagged solid. -/
def envC3 : Env :=
  { baseEnv with
    v2e := fun _ => [0, 1, 2]
    e2t := fun _ => [0, 1]
    edgeIsFeature := fun _ _ => true
    solid3 := fun _ => (false, true, false) }

/-- As `envC3` but with no solid axes (for the amended corner theorem). -/
def envC3f : Env :=
  { baseEnv with
    v2e := fun _ => [0, 1, 2]
    e2t := fun _ => [0, 1]
    edgeIsFeature := fun _ _ => true }

/-- A 3–4–5 right triangle: all angle cosines (`0`, `4/5`, `3/5`) lie in
`[-9/10, 9/10]`; the `sqrt` oracle is exact on the squared edge lengths. -/
def pos7 : Nat → Vec3 := fun i =>
  if i = 0 then ⟨0, 0, 0⟩ else if i = 1 then ⟨4, 0, 0⟩ else ⟨0, 3, 0⟩

def envC7 : Env :=
  { baseEnv with
    sqrtQ := fun q => if q = 16 then 4 else if q = 9 then 3 else if q = 25 then 5 else 1 }

def stateC7 : State := { baseState with positions := pos7, newpositions := pos7 }

/-- A flat configuration with one unit-area triangle of normal `(0,0,1)`:
the Jiao combined normal evaluates to `(0,0,1)`. -/
def stateC8 : State :=
  { baseState with
    triangle_areas := fun _ => 1
    triangle_normals := fun _ => ⟨0, 0, 1⟩ }

/-- One feature edge (count 1) and a degenerate spectrum `(0,0,1)` whose
mid/max ratio `0` fails Jiao's threshold, forcing the geometric fallback. -/
def envC9 : Env := { baseEnv with edgeIsFeature := fun _ _ => true }

/-- A triangle whose first and third vertex indices coincide (`(0,1,0)`)
— degenerate by repeated index, but not of the `tri[0]==tri[1]`
placeholder form. -/
def envC2 : Env := { baseEnv with tris := fun _ => (0, 1, 0) }

/-- A placeholder triangle `(1,1,2)` (`tri[0]==tri[1]`). -/
def envC2b : Env := { baseEnv with tris := fun _ => (1, 1, 2) }

/-- Collinear positions with an honest `sqrt` at `0`: the incident
triangle has zero area yet a badly wrong angle cosine. -/
def envC10 : Env := { baseEnv with sqrtQ := fun q => if q = 0 then 0 else 1 }

/-! ## Theorems: generic lemmas -/

theorem qdiv_eq (a b : ℚ) : qdiv a b = a / b := by
  rw [qdiv, Rat.divInt_eq_div]
  rcases eq_or_ne b 0 with hb | hb
  · subst hb
    simp
  · have hbn : (b.num : ℚ) ≠ 0 := by
      exact_mod_cast Rat.num_ne_zero.mpr hb
    have had : (a.den : ℚ) ≠ 0 := by
      exact_mod_cast a.den_nz
    have hbd : (b.den : ℚ) ≠ 0 := by
      exact_mod_cast b.den_nz
    have h : ((a.num * b.den : ℤ) : ℚ) / ((a.den * b.num : ℤ) : ℚ)
        = ((a.num : ℚ) / a.den) / ((b.num : ℚ) / b.den) := by
      push_cast
      field_simp
    rw [h, Rat.num_div_den, Rat.num_div_den]

theorem qadd_eq (a b : ℚ) : qadd a b = a + b := by
  rw [qadd, Rat.mkRat_eq_div]
  have had : (a.den : ℚ) ≠ 0 := by
    exact_mod_cast a.den_nz
  have hbd : (b.den : ℚ) ≠ 0 := by
    exact_mod_cast b.den_nz
  have h : ((a.num * b.den + b.num * a.den : ℤ) : ℚ) / ((a.den * b.den : ℕ) : ℚ)
      = (a.num : ℚ) / a.den + (b.num : ℚ) / b.den := by
    push_cast
    field_simp
  rw [h, Rat.num_div_den, Rat.num_div_den]

theorem qsub_eq (a b : ℚ) : qsub a b = a - b := by
  rw [qsub, Rat.mkRat_eq_div]
  have had : (a.den : ℚ) ≠ 0 := by
    exact_mod_cast a.den_nz
  have hbd : (b.den : ℚ) ≠ 0 := by
    exact_mod_cast b.den_nz
  have h : ((a.num * b.den - b.num * a.den : ℤ) : ℚ) / ((a.den * b.den : ℕ) : ℚ)
      = (a.num : ℚ) / a.den - (b.num : ℚ) / b.den := by
    push_cast
    field_simp
    ring
  rw [h, Rat.num_div_den, Rat.num_div_den]

theorem qmul_eq (a b : ℚ) : qmul a b = a * b := by
  rw [qmul, Rat.mkRat_eq_div]
  have had : (a.den : ℚ) ≠ 0 := by
    exact_mod_cast a.den_nz
  have hbd : (b.den : ℚ) ≠ 0 := by
    exact_mod_cast b.den_nz
  have h : ((a.num * b.num : ℤ) : ℚ) / ((a.den * b.den : ℕ) : ℚ)
      = ((a.num : ℚ) / a.den) * ((b.num : ℚ) / b.den) := by
    push_cast
    field_simp
  rw [h, Rat.num_div_den, Rat.num_div_den]

theorem Vec3.zero_def : (0 : Vec3) = ⟨0, 0, 0⟩ := rfl

theorem Vec3.add_def (a b : Vec3) : a + b = ⟨a.x + b.x, a.y + b.y, a.z + b.z⟩ := by
  show Vec3.add a b = _
  simp [Vec3.add, qadd_eq]

theorem Vec3.sub_def (a b : Vec3) : a - b = ⟨a.x - b.x, a.y - b.y, a.z - b.z⟩ := by
  show Vec3.sub a b = _
  simp [Vec3.sub, qsub_eq]

theorem Vec3.smul_def (q : ℚ) (a : Vec3) :
    Vec3.smul q a = ⟨q * a.x, q * a.y, q * a.z⟩ := by
  simp [Vec3.smul, qmul_eq]

theorem Vec3.divQ_def (a : Vec3) (q : ℚ) : Vec3.divQ a q = ⟨a.x / q, a.y / q, a.z / q⟩ := by
  simp [Vec3.divQ, qdiv_eq]

theorem Vec3.dot_def (a b : Vec3) :
    Vec3.dot a b = a.x * b.x + a.y * b.y + a.z * b.z := by
  simp [Vec3.dot, qadd_eq, qmul_eq]

theorem Vec3.normSq_def (a : Vec3) :
    Vec3.normSq a = a.x * a.x + a.y * a.y + a.z * a.z := by
  simp [Vec3.normSq, Vec3.dot_def]

theorem Vec3.normSq_eq_zero_iff (a : Vec3) : Vec3.normSq a = 0 ↔ a = 0 := by
  rw [Vec3.normSq_def]
  constructor
  · intro hx
    have h1 : a.x = 0 ∧ a.y = 0 ∧ a.z = 0 := by
      refine ⟨?_, ?_, ?_⟩
      · nlinarith [mul_self_nonneg a.x, mul_self_nonneg a.y, mul_self_nonneg a.z]
      · nlinarith [mul_self_nonneg a.x, mul_self_nonneg a.y, mul_self_nonneg a.z]
      · nlinarith [mul_self_nonneg a.x, mul_self_nonneg a.y, mul_self_nonneg a.z]
    cases a
    simp only [Vec3.zero_def]
    simp_all
  · intro h
    subst h
    simp [Vec3.zero_def]

theorem vec_add_zero (a : Vec3) : a + (0 : Vec3) = a := by
  cases a
  simp [Vec3.add_def, Vec3.zero_def]

theorem upd_upd {α : Type} (f : Nat → α) (i : Nat) (a b : α) :
    upd (upd f i a) i b = upd f i b := by
  funext j
  by_cases h : j = i <;> simp [upd, h]

theorem upd_self {α : Type} (f : Nat → α) (i j : Nat) : upd f i (f i) j = f j := by
  by_cases h : j = i
  · subst h
    simp [upd]
  · simp [upd, h]

/-- Under the four early-exit guards failing, `null_space_smooth_vertex`
runs its tail. -/
theorem nssv_reaches_core (E : Env) (s : State) (v : Nat) (d0 : Vec3)
    (hdel : E.deleted v = false)
    (hne : (E.v2t v).isEmpty = false)
    (hbd : (E.v2e v).any (fun e => (E.e2t e).length = 1) = false)
    (hw : (E.v2t v).any (fun i => bad_angle E s i) = true) :
    null_space_smooth_vertex E s v d0 = nssv_core E s v := by
  simp [null_space_smooth_vertex, hdel, hne, hbd, hw]

/-! ## C6 -/

/-- C6: for every non-deleted vertex with a non-empty set of incident
triangles, if any incident edge has exactly one incident triangle (a
boundary edge), `null_space_smooth_vertex` reports exactly zero
displacement and leaves the whole state (in particular the vertex
position) unchanged. -/
theorem C6_boundary_edge_zero_displacement (E : Env) (s : State) (v : Nat) (d0 : Vec3)
    (hdel : E.deleted v = false)
    (hne : (E.v2t v).isEmpty = false)
    (hbd : ∃ e ∈ E.v2e v, (E.e2t e).length = 1) :
    null_space_smooth_vertex E s v d0 = some (s, 0) := by
  have hb : (E.v2e v).any (fun e => (E.e2t e).length = 1) = true := by
    rcases hbd with ⟨e, he, h1⟩
    exact List.any_eq_true.mpr ⟨e, he, by simp [h1]⟩
  simp [null_space_smooth_vertex, hdel, hne, hb]

/-- Witness for C6 at a concrete boundary configuration. -/
theorem C6_boundary_edge_zero_displacement_witness :
    null_space_smooth_vertex envC6 baseState 0 ⟨5, 5, 5⟩ = some (baseState, 0) :=
  C6_boundary_edge_zero_displacement envC6 baseState 0 ⟨5, 5, 5⟩ rfl rfl
    ⟨0, by decide, rfl⟩

/-! ## C5 -/

/-- C5: if the magnitude of the post-solidity-mask displacement exceeds
`2 * max_edge_length`, `null_space_smooth_vertex` returns exactly zero
displacement (not a clamped nonzero value) and the state — position and
all cached triangle quantities — is unchanged. -/
theorem C5_magnitude_cap_discards_move (E : Env) (s : State) (v : Nat) (d0 dc : Vec3)
    (hdel : E.deleted v = false)
    (hne : (E.v2t v).isEmpty = false)
    (hbd : (E.v2e v).any (fun e => (E.e2t e).length = 1) = false)
    (hw : (E.v2t v).any (fun i => bad_angle E s i) = true)
    (hd : compute_displacement E s v (E.v2t v) = some dc)
    (hmag : magQ E (apply_solid_mask (E.solid3 v) dc) > qmul 2 E.maxEdgeLength) :
    null_space_smooth_vertex E s v d0 = some (s, 0) := by
  rw [nssv_reaches_core E s v d0 hdel hne hbd hw]
  simp [nssv_core, hd, hmag]

/-- Witness for C5: a displacement of magnitude 100 against
`2 * max_edge_length = 2` is discarded entirely. -/
theorem C5_magnitude_cap_discards_move_witness :
    null_space_smooth_vertex envC5 stateC5 0 0 = some (stateC5, 0) :=
  C5_magnitude_cap_discards_move envC5 stateC5 0 0 ⟨100, 0, 0⟩ rfl rfl (by decide)
    (by decide) (by decide) (by decide)

/-! ## C1 -/

/-- C1: with collision safety enabled, if
`smooth_vertex_pseudo_motion_introduces_collision` fires on the staged
state (exact CCD reports a collision among the gathered candidates, or a
checked candidate's static proximity distance is below the collision
epsilon), the move is rejected atomically: the staged new position is
reverted to the current position, the reported displacement is zero, and
the committed positions and cached areas/normals/centroids are
unchanged. -/
theorem C1_collision_reject_atomic (E : Env) (s : State) (v : Nat) (d0 dc : Vec3)
    (hdel : E.deleted v = false)
    (hne : (E.v2t v).isEmpty = false)
    (hbd : (E.v2e v).any (fun e => (E.e2t e).length = 1) = false)
    (hw : (E.v2t v).any (fun i => bad_angle E s i) = true)
    (hd : compute_displacement E s v (E.v2t v) = some dc)
    (hmag : ¬ magQ E (apply_solid_mask (E.solid3 v) dc) > qmul 2 E.maxEdgeLength)
    (hcs : E.collisionSafety = true)
    (hcol : introduces_collision E
      (staged s v (s.positions v + apply_solid_mask (E.solid3 v) dc)) v = true) :
    null_space_smooth_vertex E s v d0 = some (staged s v (s.positions v), 0) := by
  rw [nssv_reaches_core E s v d0 hdel hne hbd hw]
  simp only [nssv_core, hd]
  rw [if_neg hmag]
  simp only [hcs, hcol, Bool.and_self, if_pos]
  simp [staged, upd_upd]

/-- Witness for C1 at a concrete colliding configuration. -/
theorem C1_collision_reject_atomic_witness :
    null_space_smooth_vertex envC1 baseState 0 0 = some (staged baseState 0 (baseState.positions 0), 0) :=
  C1_collision_reject_atomic envC1 baseState 0 0 0 rfl rfl (by decide) (by decide)
    (by decide) (by decide) rfl (by decide)

/-! ## C3 -/

/-- C3 counterexample: at a corner vertex (feature edge count 3) whose
middle axis is flagged solid, the solidity mask overwrites the zero corner
displacement with the literal constant `1`, so the reported displacement
is `(0,1,0) ≠ 0` and the vertex position moves from `(0,0,0)` to
`(0,1,0)` — the claim as stated fails. -/
theorem C3_counterexample :
    vertex_feature_edge_count envC3 baseState 0 = 3 ∧
    (null_space_smooth_vertex envC3 baseState 0 0).map Prod.snd = some ⟨0, 1, 0⟩ ∧
    (null_space_smooth_vertex envC3 baseState 0 0).map (fun r => r.1.positions 0)
      = some ⟨0, 1, 0⟩ ∧
    (⟨0, 1, 0⟩ : Vec3) ≠ 0 ∧ (⟨0, 1, 0⟩ : Vec3) ≠ baseState.positions 0 := by
  refine ⟨by decide, by decide, by decide, by decide, by decide⟩

/-- C3 (amended): a vertex reaching the dihedral-aware policy with
feature edge count at least 3, provided its second and third axes are not
flagged solid (the solidity mask would otherwise write the constants 1/2
into them), gets exactly zero displacement and its position is
unchanged. -/
theorem C3_corner_vertex_frozen (E : Env) (s : State) (v : Nat) (d0 : Vec3)
    (hdel : E.deleted v = false)
    (hne : (E.v2t v).isEmpty = false)
    (hbd : (E.v2e v).any (fun e => (E.e2t e).length = 1) = false)
    (hw : (E.v2t v).any (fun i => bad_angle E s i) = true)
    (hagg : E.aggressive = false)
    (hroute : regularize_folded_feature E s v = false ∨
      ¬((sharpest_region_search E s v).1 ≠ -1 ∧
        qsub E.piQ (sharpest_region_search E s v).2 < E.sharpFoldThreshold))
    (hcount : 3 ≤ vertex_feature_edge_count E s v)
    (hsolid1 : (E.solid3 v).2.1 = false)
    (hsolid2 : (E.solid3 v).2.2 = false) :
    ∃ s', null_space_smooth_vertex E s v d0 = some (s', 0) ∧
      ∀ w, s'.positions w = s.positions w := by
  rw [nssv_reaches_core E s v d0 hdel hne hbd hw]
  have hdd : get_smoothing_displacement_dihedral E s v (E.v2t v) = some 0 := by
    rw [get_smoothing_displacement_dihedral, if_pos hcount]
  have hcd : compute_displacement E s v (E.v2t v) = some 0 := by
    rw [compute_displacement, hagg]
    by_cases hr : regularize_folded_feature E s v = true
    · have hx : ¬((sharpest_region_search E s v).1 ≠ -1 ∧
          qsub E.piQ (sharpest_region_search E s v).2 < E.sharpFoldThreshold) := by
        rcases hroute with h | h
        · rw [h] at hr
          exact absurd hr (by simp)
        · exact h
      simp only [Bool.false_eq_true, if_false, hr, if_true, hx, hdd]
    · have hr' : regularize_folded_feature E s v = false := by
        simpa using hr
      simp only [Bool.false_eq_true, if_false, hr', hdd]
  simp only [nssv_core, hcd]
  have hd0 : apply_solid_mask (E.solid3 v) 0 = 0 := by
    simp [apply_solid_mask, hsolid1, hsolid2, Vec3.zero_def]
  rw [hd0]
  by_cases hc : magQ E 0 > qmul 2 E.maxEdgeLength
  · rw [if_pos hc]
    exact ⟨s, rfl, fun w => rfl⟩
  · rw [if_neg hc]
    have hnp : s.positions v + (0 : Vec3) = s.positions v := vec_add_zero _
    rw [hnp]
    by_cases hb : (E.collisionSafety && introduces_collision E (staged s v (s.positions v)) v)
        = true
    · rw [if_pos hb]
      exact ⟨_, rfl, fun w => rfl⟩
    · rw [if_neg hb]
      refine ⟨_, rfl, fun w => ?_⟩
      show (refresh_caches E _ (E.v2t v)).positions w = s.positions w
      simp [refresh_caches, staged, upd_self]

/-- Witness for the amended C3 at a concrete corner configuration with no
solid axes. -/
theorem C3_corner_vertex_frozen_witness :
    ∃ s', null_space_smooth_vertex envC3f baseState 0 0 = some (s', 0) ∧
      ∀ w, s'.positions w = baseState.positions w :=
  C3_corner_vertex_frozen envC3f baseState 0 0 rfl rfl (by decide) (by decide) rfl
    (Or.inl (by decide)) (by decide) rfl rfl

/-! ## C4 -/

/-- C4 counterexample: with the middle axis flagged solid and a surviving
zero displacement, the mask sets that component to the constant `1`, not
`0` — the reported displacement is `(0,1,0)` with a nonzero solid-axis
component, refuting the claim that solid axes are zeroed. -/
theorem C4_counterexample :
    (envC3.solid3 0).2.1 = true ∧
    (null_space_smooth_vertex envC3 baseState 0 0).map Prod.snd = some ⟨0, 1, 0⟩ ∧
    (⟨0, 1, 0⟩ : Vec3).y ≠ 0 := by
  refine ⟨rfl, by decide, by decide⟩

/-- C4 (amended): for a displacement `dc` surviving policy selection, the
per-axis solidity mask applied before the magnitude cap / collision check
writes `0` into a solid axis 0 but the literal constants `1` and `2` into
solid axes 1 and 2, and the reported displacement on the commit path is
exactly that masked vector. -/
theorem C4_solid_mask_constants (E : Env) (s : State) (v : Nat) (d0 dc : Vec3)
    (hdel : E.deleted v = false)
    (hne : (E.v2t v).isEmpty = false)
    (hbd : (E.v2e v).any (fun e => (E.e2t e).length = 1) = false)
    (hw : (E.v2t v).any (fun i => bad_angle E s i) = true)
    (hd : compute_displacement E s v (E.v2t v) = some dc)
    (hmag : ¬ magQ E (apply_solid_mask (E.solid3 v) dc) > qmul 2 E.maxEdgeLength)
    (hnc : (E.collisionSafety && introduces_collision E
      (staged s v (s.positions v + apply_solid_mask (E.solid3 v) dc)) v) = false) :
    ∃ s', null_space_smooth_vertex E s v d0 =
      some (s', ⟨if (E.solid3 v).1 then 0 else dc.x,
                 if (E.solid3 v).2.1 then 1 else dc.y,
                 if (E.solid3 v).2.2 then 2 else dc.z⟩) := by
  rw [nssv_reaches_core E s v d0 hdel hne hbd hw]
  simp only [nssv_core, hd]
  rw [if_neg hmag, if_neg (by simp [hnc])]
  exact ⟨_, rfl⟩

/-- Witness for the amended C4: the corner displacement `0` is masked to
`(0,1,0)` on the commit path. -/
theorem C4_solid_mask_constants_witness :
    ∃ s', null_space_smooth_vertex envC3 baseState 0 0 =
      some (s', ⟨if (envC3.solid3 0).1 then 0 else (0 : Vec3).x,
                 if (envC3.solid3 0).2.1 then 1 else (0 : Vec3).y,
                 if (envC3.solid3 0).2.2 then 2 else (0 : Vec3).z⟩) :=
  C4_solid_mask_constants envC3 baseState 0 0 0 rfl rfl (by decide) (by decide)
    (by decide) (by decide) (by decide)

/-! ## C7 -/

theorem good_angles_not_bad (E : Env) (s : State) (i : Nat)
    (h : cosines_in_range E s i) : bad_angle E s i = false := by
  obtain ⟨h1, h2, h3, h4, h5, h6⟩ := h
  simp only [bad_angle, Bool.or_eq_false_iff, decide_eq_false_iff_not, not_lt]
  exact ⟨⟨⟨⟨⟨h1, h2⟩, h3⟩, h4⟩, h5⟩, h6⟩

/-- A non-deleted vertex all of whose incident triangles have in-range
cosines takes one of the early exits, with zero displacement and no state
change. -/
theorem nssv_good_angles (E : Env) (s : State) (v : Nat) (d0 : Vec3)
    (hdel : E.deleted v = false)
    (hgood : ∀ i ∈ E.v2t v, cosines_in_range E s i) :
    null_space_smooth_vertex E s v d0 = some (s, 0) := by
  by_cases he : (E.v2t v).isEmpty = true
  · simp [null_space_smooth_vertex, hdel, he]
  · by_cases hb : ((E.v2e v).any fun e => (E.e2t e).length = 1) = true
    · simp [null_space_smooth_vertex, hdel, he, hb]
    · have hw : ((E.v2t v).any fun i => bad_angle E s i) = false := by
        rw [List.any_eq_false]
        intro i hi
        rw [good_angles_not_bad E s i (hgood i hi)]
        simp
      simp [null_space_smooth_vertex, hdel, he, hb, hw]

/-- Any vertex (deleted or not) with in-range incident cosines leaves the
state unchanged. -/
theorem nssv_state_id (E : Env) (s : State) (v : Nat) (d0 : Vec3)
    (hgood : ∀ i ∈ E.v2t v, cosines_in_range E s i) :
    ∃ dr, null_space_smooth_vertex E s v d0 = some (s, dr) := by
  by_cases hdel : E.deleted v = true
  · exact ⟨d0, by simp [null_space_smooth_vertex, hdel]⟩
  · exact ⟨0, nssv_good_angles E s v d0 (by simpa using hdel) hgood⟩

/-- The standard sweep is the identity on the state when every vertex's
incident cosines are in range. -/
theorem run_standard_fold_id (E : Env) (s0 : State)
    (hgood : ∀ v, ∀ i ∈ E.v2t v, cosines_in_range E s0 i) :
    ∀ (l : List Nat) (dacc : Nat → Vec3),
      ∃ d, (l.foldlM
        (fun (acc : State × (Nat → Vec3)) v =>
          if E.allSolid v then pure acc
          else do
            let r ← null_space_smooth_vertex E acc.1 v (acc.2 v)
            pure (r.1, upd acc.2 v r.2))
        (s0, dacc) : Option (State × (Nat → Vec3))) = some (s0, d) := by
  intro l
  induction l with
  | nil =>
      intro dacc
      exact ⟨dacc, rfl⟩
  | cons x xs ih =>
      intro dacc
      rw [List.foldlM_cons]
      by_cases hx : E.allSolid x = true
      · rw [hx]
        simpa using ih dacc
      · have hx' : E.allSolid x = false := by
          simpa using hx
        rw [hx']
        obtain ⟨dr, hdr⟩ := nssv_state_id E s0 x (dacc x) (hgood x)
        simp only [Bool.false_eq_true, if_false, hdr, Option.bind_eq_bind,
          Option.some_bind]
        exact ih (upd dacc x dr)

/-- C7: (a) for every non-deleted vertex all of whose incident triangles
have all three interior-angle cosines within `[min_cos, max_cos]`,
`null_space_smooth_vertex` exits early with exactly zero displacement and
no state change; (b) consequently a standard-mode smoothing pass over a
mesh all of whose per-vertex incident triangles are in range returns the
initial state unchanged — every vertex position is bit-identical to its
input value. -/
theorem C7_no_bad_angles_roundtrip :
    (∀ (E : Env) (s : State) (v : Nat) (d0 : Vec3),
      E.deleted v = false →
      (∀ i ∈ E.v2t v, cosines_in_range E s i) →
      null_space_smooth_vertex E s v d0 = some (s, 0)) ∧
    (∀ (E : Env) (pos0 np0 : Nat → Vec3),
      E.aggressive = false →
      (∀ v, ∀ i ∈ E.v2t v, cosines_in_range E (initial_state E pos0 np0) i) →
      ∃ d, null_space_smoothing_pass E pos0 np0 = some (initial_state E pos0 np0, d) ∧
        ∀ w, (initial_state E pos0 np0).positions w = pos0 w) := by
  constructor
  · exact nssv_good_angles
  · intro E pos0 np0 hagg hgood
    rw [null_space_smoothing_pass, hagg]
    obtain ⟨d, hd⟩ := run_standard_fold_id E (initial_state E pos0 np0) hgood
      (List.range E.numVertices) (fun _ => (0 : Vec3))
    exact ⟨d, by simpa [run_standard] using hd, fun w => rfl⟩

/-- Witness for C7 on a 3–4–5 right-triangle mesh: the per-vertex call
exits with zero displacement, and a whole standard pass returns the
initial state. -/
theorem C7_no_bad_angles_roundtrip_witness :
    null_space_smooth_vertex envC7 stateC7 0 0 = some (stateC7, 0) ∧
    ∃ d, null_space_smoothing_pass envC7 pos7 pos7
        = some (initial_state envC7 pos7 pos7, d) ∧
      ∀ w, (initial_state envC7 pos7 pos7).positions w = pos7 w := by
  constructor
  · exact C7_no_bad_angles_roundtrip.1 envC7 stateC7 0 0 rfl (by decide)
  · refine C7_no_bad_angles_roundtrip.2 envC7 pos7 pos7 rfl ?_
    intro v i hi
    have hi0 : i = 0 := by
      simpa [envC7, baseEnv] using hi
    subst hi0
    decide

/-! ## C8 -/

/-- Removing from `t0` its component along a unit vector `n` leaves a
vector orthogonal to `n`. -/
theorem ortho_sub_normal (n t0 : Vec3) (h : Vec3.normSq n = 1) :
    Vec3.dot (t0 - Vec3.smul (Vec3.dot n t0) n) n = 0 := by
  rw [Vec3.normSq_def] at h
  simp only [Vec3.sub_def, Vec3.smul_def, Vec3.dot_def]
  linear_combination (-(n.x * t0.x + n.y * t0.y + n.z * t0.z)) * h

/-- If the `sqrt` oracle is exact at `normSq d` and `d ≠ 0`, the
normalized vector has unit squared norm. -/
theorem normSq_vnormalize_eq_one (E : Env) (d : Vec3) (hnz : d ≠ 0)
    (hs : qmul (E.sqrtQ (Vec3.normSq d)) (E.sqrtQ (Vec3.normSq d)) = Vec3.normSq d) :
    Vec3.normSq (vnormalize E d) = 1 := by
  rw [qmul_eq] at hs
  have hS : Vec3.normSq d ≠ 0 := fun h => hnz ((Vec3.normSq_eq_zero_iff d).mp h)
  rw [vnormalize, magQ]
  set m := E.sqrtQ (Vec3.normSq d) with hm
  have hm0 : m ≠ 0 := by
    intro h
    rw [h, mul_zero] at hs
    exact hS hs.symm
  rw [Vec3.divQ_def, Vec3.normSq_def]
  rw [Vec3.normSq_def] at hs
  dsimp only
  field_simp
  linear_combination -hs

/-- C8: for a vertex taking the flat branch of the dihedral-aware policy
(feature edge count 0) with a well-conditioned combined normal (nonzero
`Jiao_d`, `sqrt` exact at its squared norm — exact arithmetic), the
returned displacement is orthogonal to the normalized Jiao combined
normal: their dot product is exactly zero. -/
theorem C8_flat_displacement_orthogonal (E : Env) (s : State) (v : Nat) (tris : List Nat)
    (hcount : vertex_feature_edge_count E s v = 0)
    (hok : E.eigenOk (quadric_matrix (gathered_NW s tris)) = true)
    (hnz : jiao_combined E s tris ≠ 0)
    (hsqrt : qmul (E.sqrtQ (Vec3.normSq (jiao_combined E s tris)))
        (E.sqrtQ (Vec3.normSq (jiao_combined E s tris)))
      = Vec3.normSq (jiao_combined E s tris)) :
    ∃ t, get_smoothing_displacement_dihedral E s v tris = some t ∧
      Vec3.dot t (jiao_normal E s tris) = 0 := by
  have hdd : get_smoothing_displacement_dihedral E s v tris =
      some (Vec3.divQ (weighted_offset_sum s v tris) (sum_cached_areas s tris) -
        Vec3.smul
          (Vec3.dot (jiao_normal E s tris)
            (Vec3.divQ (weighted_offset_sum s v tris) (sum_cached_areas s tris)))
          (jiao_normal E s tris)) := by
    rw [get_smoothing_displacement_dihedral]
    rw [hcount]
    norm_num [hok]
  refine ⟨_, hdd, ?_⟩
  exact ortho_sub_normal (jiao_normal E s tris) _
    (normSq_vnormalize_eq_one E (jiao_combined E s tris) hnz hsqrt)

/-- Witness for C8: one unit triangle with normal `(0,0,1)` gives the
combined normal `(0,0,1)` and an orthogonal (here zero-`z`) displacement. -/
theorem C8_flat_displacement_orthogonal_witness :
    ∃ t, get_smoothing_displacement_dihedral baseEnv stateC8 0 [0] = some t ∧
      Vec3.dot t (jiao_normal baseEnv stateC8 [0]) = 0 :=
  C8_flat_displacement_orthogonal baseEnv stateC8 0 [0] (by decide) rfl (by decide)
    (by decide)

/-! ## C9 -/

/-- C9: in the ridge branch (feature edge count 1 or 2), the 1-D
null-space basis is the smallest-eigenvalue eigenvector exactly when the
spectrum passes Jiao's conditioning test `λmin/λmid ≤ 0.7 ∧ λmid/λmax ≥
0.00765` (the branch condition, characterized in the first conjunct);
otherwise it is the normalized vector of the single feature edge (count
1), or the normalized difference of the two feature-edge midpoints
(count 2). -/
theorem C9_ridge_direction_selection (E : Env) (s : State) (v : Nat) (tris : List Nat)
    (vals : ℚ × ℚ × ℚ) (vecs : Vec3 × Vec3 × Vec3) (fc : Int) (emin emid emax : ℚ)
    (hev : E.eigenSolve (quadric_matrix (gathered_NW s tris)) = (vals, vecs))
    (hfc : fc = vertex_feature_edge_count E s v)
    (h12 : fc = 1 ∨ fc = 2)
    (hmin : emin = eig_min_of vals) (hmid : emid = eig_mid_of vals)
    (hmax : emax = eig_max_of vals) :
    (ridge_uses_quadric emin emid emax = true ↔
      (emin / emid ≤ 7 / 10 ∧ emid / emax ≥ 153 / 20000)) ∧
    (ridge_uses_quadric emin emid emax = true →
      ridge_T E s v fc vals vecs emin emid emax = some [eig_min_vec_of vals vecs emin]) ∧
    (ridge_uses_quadric emin emid emax = false → fc = 1 →
      ∃ e, feature_edges_of E s v = [e] ∧
        ridge_T E s v fc vals vecs emin emid emax = some [feature_edge_vec E s e]) ∧
    (ridge_uses_quadric emin emid emax = false → fc = 2 →
      ∃ e1 e2, feature_edges_of E s v = [e1, e2] ∧
        ridge_T E s v fc vals vecs emin emid emax =
          some [vnormalized E (edge_midpoint E s e1 - edge_midpoint E s e2)]) := by
  have h7 : (mkRat 7 10 : ℚ) = 7 / 10 := by
    rw [Rat.mkRat_eq_div]
    norm_num
  have h153 : (mkRat 153 20000 : ℚ) = 153 / 20000 := by
    rw [Rat.mkRat_eq_div]
    norm_num
  refine ⟨?_, ?_, ?_, ?_⟩
  · rw [ridge_uses_quadric]
    simp [qdiv_eq, h7, h153]
  · intro hq
    rw [ridge_T, if_pos hq]
  · intro hq hfc1
    have hcount : (E.v2e v).countP (fun e => E.edgeIsFeature e s.triangle_normals) = 1 := by
      have h1 : vertex_feature_edge_count E s v = 1 := hfc.symm.trans hfc1
      rw [vertex_feature_edge_count] at h1
      exact_mod_cast h1
    have hlen : (feature_edges_of E s v).length = 1 := by
      rw [feature_edges_of, ← List.countP_eq_length_filter]
      exact hcount
    obtain ⟨e, he⟩ := List.length_eq_one.mp hlen
    refine ⟨e, he, ?_⟩
    rw [ridge_T, if_neg (by simp [hq]), if_pos hfc1, feature_edges_of] at *
    rw [he]
    rfl
  · intro hq hfc2
    have hcount : (E.v2e v).countP (fun e => E.edgeIsFeature e s.triangle_normals) = 2 := by
      have h1 : vertex_feature_edge_count E s v = 2 := hfc.symm.trans hfc2
      rw [vertex_feature_edge_count] at h1
      exact_mod_cast h1
    have hlen : (feature_edges_of E s v).length = 2 := by
      rw [feature_edges_of, ← List.countP_eq_length_filter]
      exact hcount
    obtain ⟨e1, e2, he⟩ := List.length_eq_two.mp hlen
    refine ⟨e1, e2, he, ?_⟩
    rw [ridge_T, if_neg (by simp [hq]), if_neg (by simp [hfc2]), if_pos hfc2]
    rw [he]
    rfl

/-- Witness for C9: one feature edge with the degenerate spectrum
`(0,0,1)` — the conditioning test fails (`0/1 < 0.00765`), so the
fallback uses the feature edge's normalized vector. -/
theorem C9_ridge_direction_selection_witness :
    (ridge_uses_quadric 0 0 1 = true ↔
      ((0 : ℚ) / 0 ≤ 7 / 10 ∧ (0 : ℚ) / 1 ≥ 153 / 20000)) ∧
    (ridge_uses_quadric 0 0 1 = true →
      ridge_T envC9 baseState 0 1 (0, 0, 1) (⟨1, 0, 0⟩, ⟨0, 1, 0⟩, ⟨0, 0, 1⟩) 0 0 1
        = some [eig_min_vec_of (0, 0, 1) (⟨1, 0, 0⟩, ⟨0, 1, 0⟩, ⟨0, 0, 1⟩) 0]) ∧
    (ridge_uses_quadric 0 0 1 = false → (1 : Int) = 1 →
      ∃ e, feature_edges_of envC9 baseState 0 = [e] ∧
        ridge_T envC9 baseState 0 1 (0, 0, 1) (⟨1, 0, 0⟩, ⟨0, 1, 0⟩, ⟨0, 0, 1⟩) 0 0 1
          = some [feature_edge_vec envC9 baseState e]) ∧
    (ridge_uses_quadric 0 0 1 = false → (1 : Int) = 2 →
      ∃ e1 e2, feature_edges_of envC9 baseState 0 = [e1, e2] ∧
        ridge_T envC9 baseState 0 1 (0, 0, 1) (⟨1, 0, 0⟩, ⟨0, 1, 0⟩, ⟨0, 0, 1⟩) 0 0 1
          = some [vnormalized envC9
              (edge_midpoint envC9 baseState e1 - edge_midpoint envC9 baseState e2)]) :=
  C9_ridge_direction_selection envC9 baseState 0 [0] (0, 0, 1)
    (⟨1, 0, 0⟩, ⟨0, 1, 0⟩, ⟨0, 0, 1⟩) 1 0 0 1 rfl (by decide) (Or.inl rfl)
    (by decide) (by decide) (by decide)

/-! ## C2 -/

/-- C2 counterexample: the degeneracy test is `tri[0] == tri[1]` only.
The triangle `(0,1,0)` has a repeated vertex index (first = third) yet
its initially cached centroid is `(1/3, 0, 0) ≠ 0`. -/
theorem C2_counterexample :
    (envC2.tris 0).1 = (envC2.tris 0).2.2 ∧
    (envC2.tris 0).1 ≠ (envC2.tris 0).2.1 ∧
    (initial_state envC2 colPos colPos).triangle_centroids 0 ≠ 0 := by
  refine ⟨rfl, by decide, by decide⟩

theorem smul_zero_vec (a : Vec3) : Vec3.smul 0 a = 0 := by
  simp [Vec3.smul_def, Vec3.zero_def]

theorem sum_cached_areas_cons_zero (s : State) (t : Nat) (rest : List Nat)
    (h : s.triangle_areas t = 0) :
    sum_cached_areas s (t :: rest) = sum_cached_areas s rest := by
  rw [sum_cached_areas, sum_cached_areas, List.foldl_cons]
  have h0 : qadd 0 (s.triangle_areas t) = 0 := by
    rw [h, qadd_eq]
    norm_num
  rw [h0]

theorem weighted_offset_sum_cons_zero (s : State) (v t : Nat) (rest : List Nat)
    (h : s.triangle_areas t = 0) :
    weighted_offset_sum s v (t :: rest) = weighted_offset_sum s v rest := by
  rw [weighted_offset_sum, weighted_offset_sum, List.foldl_cons]
  have h0 : (0 : Vec3) + Vec3.smul (s.triangle_areas t)
      (s.triangle_centroids t - s.positions v) = 0 := by
    rw [h, smul_zero_vec, vec_add_zero]
  rw [h0]

/-- C2 (amended): a placeholder triangle — one with its *first two*
vertex indices equal, the deleted-triangle convention — gets exactly zero
cached area, normal and centroid in the initial cache build and in the
per-vertex refresh, and contributes nothing to the area sum or the
weighted centroid-offset sum; a triangle whose repeated index involves
only the third slot (e.g. `(0,1,0)`) is not special-cased. -/
theorem C2_placeholder_triangle_zeroed (E : Env) (pos0 np0 : Nat → Vec3) (s : State)
    (incident : List Nat) (t v : Nat)
    (hdeg : (E.tris t).1 = (E.tris t).2.1) (ht : t < E.numTriangles)
    (hmem : t ∈ incident) :
    (initial_state E pos0 np0).triangle_areas t = 0 ∧
    (initial_state E pos0 np0).triangle_normals t = 0 ∧
    (initial_state E pos0 np0).triangle_centroids t = 0 ∧
    (refresh_caches E s incident).triangle_areas t = 0 ∧
    (refresh_caches E s incident).triangle_normals t = 0 ∧
    (refresh_caches E s incident).triangle_centroids t = 0 ∧
    (∀ rest : List Nat,
      sum_cached_areas (refresh_caches E s incident) (t :: rest) =
        sum_cached_areas (refresh_caches E s incident) rest ∧
      weighted_offset_sum (refresh_caches E s incident) v (t :: rest) =
        weighted_offset_sum (refresh_caches E s incident) v rest) := by
  have hc : incident.contains t = true := List.elem_eq_true_of_mem hmem
  have ha : (refresh_caches E s incident).triangle_areas t = 0 := by
    simp [refresh_caches, hc, hmem, hdeg]
  refine ⟨by simp [initial_state, ht, hdeg], by simp [initial_state, ht, hdeg],
    by simp [initial_state, ht, hdeg], ha, by simp [refresh_caches, hc, hmem, hdeg],
    by simp [refresh_caches, hc, hmem, hdeg], fun rest => ⟨?_, ?_⟩⟩
  · exact sum_cached_areas_cons_zero _ t rest ha
  · exact weighted_offset_sum_cons_zero _ v t rest ha

/-- Witness for the amended C2 at the placeholder triangle `(1,1,2)`. -/
theorem C2_placeholder_triangle_zeroed_witness :
    (initial_state envC2b colPos colPos).triangle_areas 0 = 0 ∧
    (initial_state envC2b colPos colPos).triangle_normals 0 = 0 ∧
    (initial_state envC2b colPos colPos).triangle_centroids 0 = 0 ∧
    (refresh_caches envC2b stateC5 [0]).triangle_areas 0 = 0 ∧
    (refresh_caches envC2b stateC5 [0]).triangle_normals 0 = 0 ∧
    (refresh_caches envC2b stateC5 [0]).triangle_centroids 0 = 0 ∧
    sum_cached_areas (refresh_caches envC2b stateC5 [0]) [0, 5] =
      sum_cached_areas (refresh_caches envC2b stateC5 [0]) [5] ∧
    weighted_offset_sum (refresh_caches envC2b stateC5 [0]) 0 [0, 5] =
      weighted_offset_sum (refresh_caches envC2b stateC5 [0]) 0 [5] := by
  have h := C2_placeholder_triangle_zeroed envC2b colPos colPos stateC5 [0] 0 0 rfl
    (by decide) (by decide)
  exact ⟨h.1, h.2.1, h.2.2.1, h.2.2.2.1, h.2.2.2.2.1, h.2.2.2.2.2.1,
    (h.2.2.2.2.2.2 [5]).1, (h.2.2.2.2.2.2 [5]).2⟩

/-! ## C10 -/

/-- C10 counterexample: a vertex whose single incident triangle is a
zero-area collinear sliver passes every eligibility check of
`null_space_smooth_vertex` (not deleted, incident triangles, no boundary
edge, a bad angle cosine — the collinear cosine `2` exceeds `max_cos`),
yet the sum of cached areas over its incident triangles is `0`, so the
unguarded division in the synthesizers runs with a zero denominator (the
displacement still computes — to `0` in exact `ℚ` arithmetic, where the
C++ doubles would produce NaN). -/
theorem C10_counterexample :
    envC10.deleted 0 = false ∧
    (envC10.v2t 0).isEmpty = false ∧
    ((envC10.v2e 0).any fun e => (envC10.e2t e).length = 1) = false ∧
    ((envC10.v2t 0).any fun i =>
      bad_angle envC10 (initial_state envC10 colPos colPos) i) = true ∧
    sum_cached_areas (initial_state envC10 colPos colPos) (envC10.v2t 0) = 0 ∧
    compute_displacement envC10 (initial_state envC10 colPos colPos) 0 (envC10.v2t 0)
      = some 0 := by
  refine ⟨rfl, rfl, by decide, by decide, by decide, by decide⟩

theorem sum_cached_areas_cons (s : State) (t : Nat) (rest : List Nat) :
    sum_cached_areas s (t :: rest) = s.triangle_areas t + sum_cached_areas s rest := by
  rw [sum_cached_areas, sum_cached_areas, List.foldl_cons]
  have hsh : ∀ (l : List Nat) (a : ℚ),
      l.foldl (fun acc u => qadd acc (s.triangle_areas u)) a
        = a + l.foldl (fun acc u => qadd acc (s.triangle_areas u)) 0 := by
    intro l
    induction l with
    | nil =>
        intro a
        simp
    | cons x xs ih =>
        intro a
        rw [List.foldl_cons, List.foldl_cons, ih (qadd a (s.triangle_areas x)),
          ih (qadd 0 (s.triangle_areas x)), qadd_eq, qadd_eq]
        ring

  rw [hsh rest (qadd 0 (s.triangle_areas t)), qadd_eq]
  ring

theorem sum_cached_areas_nonneg (s : State) (l : List Nat)
    (h : ∀ t ∈ l, 0 ≤ s.triangle_areas t) : 0 ≤ sum_cached_areas s l := by
  induction l with
  | nil => norm_num [sum_cached_areas]
  | cons x xs ih =>
      rw [sum_cached_areas_cons]
      have h1 := h x (List.mem_cons_self x xs)
      have h2 := ih (fun t ht => h t (List.mem_cons_of_mem x ht))
      linarith

/-- C10 (amended): the synthesizers divide by the cached-area sum with no
zero guard; that sum is strictly positive whenever all cached areas of
the triangle set are nonnegative and at least one is strictly positive —
but the eligibility checks of `null_space_smooth_vertex` alone do not
guarantee this (see the counterexample: an all-zero-area sliver fan
reaches the division with a zero sum). -/
theorem C10_area_sum_positive (s : State) (tris : List Nat)
    (hnn : ∀ t ∈ tris, 0 ≤ s.triangle_areas t)
    (hpos : ∃ t ∈ tris, 0 < s.triangle_areas t) :
    0 < sum_cached_areas s tris := by
  induction tris with
  | nil =>
      rcases hpos with ⟨t, ht, _⟩
      cases ht
  | cons x xs ih =>
      rw [sum_cached_areas_cons]
      rcases hpos with ⟨t, ht, htpos⟩
      rcases List.mem_cons.mp ht with h | h
      · subst h
        have h2 := sum_cached_areas_nonneg s xs
          (fun u hu => hnn u (List.mem_cons_of_mem t hu))
        linarith
      · have h1 := ih (fun u hu => hnn u (List.mem_cons_of_mem x hu)) ⟨t, h, htpos⟩
        have h2 := hnn x (List.mem_cons_self x xs)
        linarith

/-- Witness for the amended C10: a unit-area triangle gives a positive
sum. -/
theorem C10_area_sum_positive_witness : 0 < sum_cached_areas stateC5 [0] :=
  C10_area_sum_positive stateC5 [0] (by decide) ⟨0, by decide, by decide⟩

end MeshSmoother
